import Mathlib

/-! To-Do list client: the task synchronizer of `src/App.jsx`.

A shallow embedding of the `Dashboard` and `TaskEditor` components of
`src/todo_app/src/App.jsx`: the local task list, the optimistic updaters handed to
`setTasks`, the remote requests they issue, the derived list `filtered`, and the
editor's `handleSubmit`.

JavaScript values are embedded dynamically (`JsVal`, `JsObj`), so that a task coming
from the remote store may carry any fields.  The values that are chosen outside the
program are parameters of the handlers: the id returned by `uuidv4()`, the timestamp
`new Date().toISOString()`, the answer of `confirm(...)`, the outcome of each remote
request and the case mapping of `String.prototype.toLowerCase`.
-/

namespace TodoApp

/-! ## JavaScript values and objects -/

/-- The JavaScript values that occur in task records and form payloads. -/
inductive JsVal where
  | undefined
  | null
  | bool (b : Bool)
  | str (s : String)
  deriving DecidableEq, Repr

/-- JavaScript `ToBoolean`: `undefined`, `null`, `false` and `''` are falsy. -/
def JsVal.truthy : JsVal → Bool
  | .undefined => false
  | .null => false
  | .bool b => b
  | .str s => decide (s ≠ "")

/-- The operator `a === b` on the values above. -/
def strictEq (a b : JsVal) : Bool := decide (a = b)

/-- The operator `a || b`. -/
def jsOr (a b : JsVal) : JsVal := if a.truthy then a else b

/-- A plain object: its property definitions, the most recent one first.  Reading a
key returns the most recent definition, so a later definition of a key overrides an
earlier one as in an object literal. -/
abbrev JsObj := List (String × JsVal)

/-- Whether the object has the own property `k`. -/
def JsObj.hasKey (o : JsObj) (k : String) : Bool := (o.lookup k).isSome

/-- Property read `o.k`; an absent property reads as `undefined`. -/
def JsObj.get (o : JsObj) (k : String) : JsVal := (o.lookup k).getD .undefined

/-- The object literal `{ ...base, ...over }`: every property of `base`, overridden
and extended by the properties of `over`. -/
def spread (base over : JsObj) : JsObj := over ++ base

/-! ## The remote task store and the dashboard state -/

/-- A request sent to the remote `tasks` table. -/
inductive RemoteCall where
  | select
  | insert (record : JsObj)
  | update (patch : JsObj) (id : JsVal)
  | delete (id : JsVal)
  deriving DecidableEq, Repr

/-- A remote request together with the local task list as it stood when the request
was issued. -/
structure Issued where
  call : RemoteCall
  localTasks : List JsObj
  deriving DecidableEq, Repr

/-- The state of `Dashboard`: the `tasks` and `loading` state variables, and the
remote requests issued so far, oldest first. -/
structure Dashboard where
  tasks : List JsObj
  loading : Bool
  calls : List Issued
  deriving DecidableEq, Repr

/-- The call `setTasks(updater)` with a functional updater. -/
def setTasks (updater : List JsObj → List JsObj) (st : Dashboard) : Dashboard :=
  { st with tasks := updater st.tasks }

/-- The call `setLoading(b)`. -/
def setLoading (b : Bool) (st : Dashboard) : Dashboard :=
  { st with loading := b }

/-- Issue a request to the remote store. -/
def issue (c : RemoteCall) (st : Dashboard) : Dashboard :=
  { st with calls := st.calls ++ [⟨c, st.tasks⟩] }

/-! ## `fetchTasks` -/

/-- The function `fetchTasks`, given the answer `{ data, error }` of the remote select:
on an error nothing is set, otherwise `setTasks(data); setLoading(false)`. -/
def fetchTasks (answer : Except String (List JsObj)) (st : Dashboard) : Dashboard :=
  let st := issue .select st
  match answer with
  | .error _ => st
  | .ok data => setLoading false (setTasks (fun _ => data) st)

/-! ## `addTask` -/

/-- The record `newTask` built by `addTask(payload)`, `newId` being the result of
`uuidv4()`. -/
def newTask (userId newId : String) (payload : JsObj) : JsObj :=
  [ ("id", .str newId),
    ("user_id", .str userId),
    ("title", payload.get "title"),
    ("description", jsOr (payload.get "description") (.str "")),
    ("completed", .bool false) ]

/-- The optimistic updater of `addTask`: `prev => [newTask, ...prev]`. -/
def addTaskUpdater (task : JsObj) (prev : List JsObj) : List JsObj := task :: prev

/-- The reverting updater of `addTask`: `prev => prev.filter(t => t.id !== newTask.id)`. -/
def addTaskRevert (task : JsObj) (prev : List JsObj) : List JsObj :=
  prev.filter (fun t => !strictEq (t.get "id") (task.get "id"))

/-- The function `addTask` up to its `await`: the optimistic update, then the remote insert. -/
def addTaskOptimistic (userId newId : String) (payload : JsObj) (st : Dashboard) : Dashboard :=
  issue (.insert (newTask userId newId payload))
    (setTasks (addTaskUpdater (newTask userId newId payload)) st)

/-- The function `addTask` after its `await`: a failed insert is reverted. -/
def addTaskResolve (userId newId : String) (payload : JsObj) (insertError : Bool)
    (st : Dashboard) : Dashboard :=
  if insertError then setTasks (addTaskRevert (newTask userId newId payload)) st else st

/-- The function `addTask`, run to completion with the given outcome of the insert. -/
def addTask (userId newId : String) (payload : JsObj) (insertError : Bool)
    (st : Dashboard) : Dashboard :=
  addTaskResolve userId newId payload insertError (addTaskOptimistic userId newId payload st)

/-! ## `updateTask` -/

/-- The optimistic updater of `updateTask`:
`prev => prev.map(t => t.id === id ? { ...t, ...changes } : t)`. -/
def updateTaskUpdater (id : JsVal) (changes : JsObj) (prev : List JsObj) : List JsObj :=
  prev.map (fun t => if strictEq (t.get "id") id then spread t changes else t)

/-- The function `updateTask` up to its `await`: the optimistic merge, then the remote
update of `{ ...changes, updated_at: now }`. -/
def updateTaskOptimistic (id : JsVal) (changes : JsObj) (now : String)
    (st : Dashboard) : Dashboard :=
  issue (.update (spread changes [("updated_at", .str now)]) id)
    (setTasks (updateTaskUpdater id changes) st)

/-- The function `updateTask` after its `await`: a failed update calls `fetchTasks()`. -/
def updateTaskResolve (updateError : Bool) (refetch : Except String (List JsObj))
    (st : Dashboard) : Dashboard :=
  if updateError then fetchTasks refetch st else st

/-- The function `updateTask`, run to completion. -/
def updateTask (id : JsVal) (changes : JsObj) (now : String) (updateError : Bool)
    (refetch : Except String (List JsObj)) (st : Dashboard) : Dashboard :=
  updateTaskResolve updateError refetch (updateTaskOptimistic id changes now st)

/-! ## `deleteTask` -/

/-- The updater of `deleteTask`: `prev => prev.filter(t => t.id !== id)`. -/
def deleteTaskUpdater (id : JsVal) (prev : List JsObj) : List JsObj :=
  prev.filter (fun t => !strictEq (t.get "id") id)

/-- The function `deleteTask` up to its `await`, `confirmed` being the answer of
`confirm('Delete this task?')`. -/
def deleteTaskOptimistic (confirmed : Bool) (id : JsVal) (st : Dashboard) : Dashboard :=
  if !confirmed then st
  else issue (.delete id) (setTasks (deleteTaskUpdater id) st)

/-- The function `deleteTask` after its `await`: a failed delete calls `fetchTasks()`. -/
def deleteTaskResolve (confirmed deleteError : Bool) (refetch : Except String (List JsObj))
    (st : Dashboard) : Dashboard :=
  if !confirmed then st
  else if deleteError then fetchTasks refetch st else st

/-- The function `deleteTask`, run to completion. -/
def deleteTask (confirmed : Bool) (id : JsVal) (deleteError : Bool)
    (refetch : Except String (List JsObj)) (st : Dashboard) : Dashboard :=
  deleteTaskResolve confirmed deleteError refetch (deleteTaskOptimistic confirmed id st)

/-! ## The quick action 'Mark all done' -/

/-- The optimistic steps of 'Mark all done':
`tasks.filter(t => !t.completed).map(t => updateTask(t.id, { completed: true }))`.
Every call of `updateTask` runs its `setTasks(updater)` before its first `await`, so the
updaters of the selected tasks are applied to the local list one after the other. -/
def markAllDone (tasks : List JsObj) : List JsObj :=
  ((tasks.filter (fun t => !(t.get "completed").truthy)).map
      (fun t => updateTaskUpdater (t.get "id") [("completed", .bool true)])).foldl
    (fun cur updater => updater cur) tasks

/-! ## The derived list `filtered` -/

/-- The exception raised by a method call on a value that has no such method. -/
inductive JsError where
  | typeError
  deriving DecidableEq, Repr

deriving instance DecidableEq for Except

/-- The method call `v.toLowerCase()`: defined on strings, a `TypeError` on every other
value.  The case mapping `lower` of strings is a parameter. -/
def toLowerCase (lower : String → String) : JsVal → Except JsError String
  | .str s => .ok (lower s)
  | _ => .error .typeError

/-- The method call `s.includes(q)` on strings: `q` occurs in `s` as a contiguous run. -/
def includes (s q : String) : Bool := s.data.tails.any (fun rest => q.data.isPrefixOf rest)

/-- The first callback of `filtered`, the status bucket:
`if (filter === 'active') return !t.completed; if (filter === 'completed') return
t.completed; return true`, its result converted to a boolean by `filter`. -/
def statusKeeps (filter : String) (t : JsObj) : Bool :=
  if filter = "active" then !(t.get "completed").truthy
  else if filter = "completed" then (t.get "completed").truthy
  else true

/-- The second callback of `filtered`, the search:
`t.title.toLowerCase().includes(query.toLowerCase()) ||
(t.description || '').toLowerCase().includes(query.toLowerCase())`. -/
def queryKeeps (lower : String → String) (query : String) (t : JsObj) : Except JsError Bool :=
  match toLowerCase lower (t.get "title") with
  | .error e => .error e
  | .ok title =>
    if includes title (lower query) then .ok true
    else
      match toLowerCase lower (jsOr (t.get "description") (.str "")) with
      | .error e => .error e
      | .ok description => .ok (includes description (lower query))

/-- The method `Array.prototype.filter` with a callback that may throw: the elements
are visited in order and the first exception aborts the call. -/
def filterThrowing (p : JsObj → Except JsError Bool) : List JsObj → Except JsError (List JsObj)
  | [] => .ok []
  | t :: ts =>
    match p t with
    | .error e => .error e
    | .ok keep =>
      match filterThrowing p ts with
      | .error e => .error e
      | .ok rest => .ok (if keep then t :: rest else rest)

/-- The list `filtered` of `Dashboard`: the status filter, then the search filter. -/
def filtered (lower : String → String) (tasks : List JsObj) (filter query : String) :
    Except JsError (List JsObj) :=
  filterThrowing (queryKeeps lower query) (tasks.filter (statusKeeps filter))

/-! ## The task editor -/

/-- The code points removed by `String.prototype.trim`: the white space and line
terminator code points of ECMAScript. -/
def isJsSpace (c : Char) : Bool :=
  let n := c.toNat
  n == 0x09 || n == 0x0A || n == 0x0B || n == 0x0C || n == 0x0D || n == 0x20 || n == 0xA0
    || n == 0x1680 || (0x2000 ≤ n && n ≤ 0x200A) || n == 0x2028 || n == 0x2029
    || n == 0x202F || n == 0x205F || n == 0x3000 || n == 0xFEFF

/-- The method call `s.trim()`. -/
def trim (s : String) : String :=
  ⟨((s.data.dropWhile isJsSpace).reverse.dropWhile isJsSpace).reverse⟩

/-- What `TaskEditor.handleSubmit` passes to `onSave`, or `none` when it returns at
`if (!title.trim()) return;` without calling `onSave`. -/
def handleSubmit (title description priority deadline : String) : Option JsObj :=
  if !(JsVal.str (trim title)).truthy then none
  else some
    [ ("title", .str (trim title)),
      ("description", .str (trim description)),
      ("priority", .str priority),
      ("deadline", .str deadline) ]

/-- The outcome of the one remote request made by a save, and the answer to the
`fetchTasks()` that follows a failed update. -/
structure SaveOutcome where
  error : Bool
  refetch : Except String (List JsObj)

/-- The `onSave` callback that `Dashboard` passes to `TaskEditor`, `editorTask` being
`editor.task`: `updateTask(editor.task.id, payload)` when a task is being edited,
`addTask(payload)` otherwise. -/
def onSave (editorTask : Option JsObj) (userId newId now : String) (outcome : SaveOutcome)
    (payload : JsObj) (st : Dashboard) : Dashboard :=
  match editorTask with
  | some task => updateTask (task.get "id") payload now outcome.error outcome.refetch st
  | none => addTask userId newId payload outcome.error st

/-- Submitting the task editor: `handleSubmit` followed by the `onSave` of `Dashboard`. -/
def submitEditor (editorTask : Option JsObj) (userId newId now : String) (outcome : SaveOutcome)
    (title description priority deadline : String) (st : Dashboard) : Dashboard :=
  match handleSubmit title description priority deadline with
  | none => st
  | some payload => onSave editorTask userId newId now outcome payload st

/-! ## Specification-side definitions -/

/-- The ids of the tasks of a list, in order. -/
def ids (tasks : List JsObj) : List JsVal := tasks.map (fun t => t.get "id")

/-- A task record typed as in the data model: `title` is text, `description` is text
or missing, `completed` is a boolean. -/
def isTask (t : JsObj) : Bool :=
  (match t.get "title" with
    | .str _ => true
    | _ => false) &&
  (match t.get "description" with
    | .str _ => true
    | .null => true
    | .undefined => true
    | _ => false) &&
  (match t.get "completed" with
    | .bool _ => true
    | _ => false)

/-- The text of a field, a missing one counting as the empty string. -/
def textOf (t : JsObj) (k : String) : String :=
  match t.get k with
  | .str s => s
  | _ => ""

/-- The status bucket as the specification words it: `all` is every task, `active` is
`completed` false, `completed` is `completed` true. -/
def inBucket (filter : String) (t : JsObj) : Bool :=
  if filter = "all" then true
  else if filter = "active" then decide (t.get "completed" = .bool false)
  else if filter = "completed" then decide (t.get "completed" = .bool true)
  else false

/-- The text `s` contains `q` as a substring ignoring letter case. -/
def containsIgnoringCase (lower : String → String) (s q : String) : Bool :=
  includes (lower s) (lower q)

/-- The displayed tasks as the specification words them: in the selected bucket, and
the title or the description contains the query ignoring letter case. -/
def isDisplayed (lower : String → String) (filter query : String) (t : JsObj) : Bool :=
  inBucket filter t &&
    (containsIgnoringCase lower (textOf t "title") query ||
      containsIgnoringCase lower (textOf t "description") query)

/-- One optimistic step of `updateTask(i, {completed: true})` seen on a single task. -/
def completeStep (u : JsObj) (i : JsVal) : JsObj :=
  if strictEq (u.get "id") i then spread u [("completed", .bool true)] else u

/-- A case mapping for examples: the ASCII letters are lowered. -/
def asciiLower (s : String) : String := ⟨s.data.map Char.toLower⟩

/-! ## Lemmas on values and objects -/

theorem strictEq_eq_true_iff (a b : JsVal) : strictEq a b = true ↔ a = b := by
  simp [strictEq]

theorem get_spread (t c : JsObj) (k : String) :
    (spread t c).get k = if c.hasKey k then c.get k else t.get k := by
  unfold spread JsObj.get JsObj.hasKey
  rw [List.lookup_append]
  cases List.lookup k c <;> simp

theorem newTask_id (userId newId : String) (payload : JsObj) :
    (newTask userId newId payload).get "id" = .str newId := by
  simp [newTask, JsObj.get, List.lookup]

theorem filter_id_ne_eq_self (v : JsVal) (tasks : List JsObj)
    (h : ∀ t ∈ tasks, t.get "id" ≠ v) :
    tasks.filter (fun t => !strictEq (t.get "id") v) = tasks := by
  rw [List.filter_eq_self]
  intro t ht
  simp [strictEq, h t ht]

/-! ## Create -/

/-- C1: after `addTask` whose remote insert fails, no task of the local list has the
generated id, whatever the list was when the failure is handled; and when no task
had that id before the create, the local list is the list before the create. -/
theorem addTask_failed_insert_rolls_back (userId newId : String) (payload : JsObj)
    (st : Dashboard) :
    (∀ t ∈ (addTask userId newId payload true st).tasks, t.get "id" ≠ .str newId) ∧
    (∀ cur : Dashboard, ∀ t ∈ (addTaskResolve userId newId payload true cur).tasks,
        t.get "id" ≠ .str newId) ∧
    ((∀ t ∈ st.tasks, t.get "id" ≠ .str newId) →
        (addTask userId newId payload true st).tasks = st.tasks) := by
  have hres : ∀ cur : Dashboard, ∀ t ∈ (addTaskResolve userId newId payload true cur).tasks,
      t.get "id" ≠ .str newId := by
    intro cur t ht
    simp only [addTaskResolve, setTasks, addTaskRevert, newTask_id, if_true,
      List.mem_filter] at ht
    simpa [strictEq] using ht.2
  refine ⟨fun t ht => hres _ t ht, hres, ?_⟩
  intro hfresh
  simp only [addTask, addTaskResolve, addTaskOptimistic, setTasks, issue, addTaskUpdater,
    addTaskRevert, newTask_id, if_true]
  rw [List.filter_cons]
  simp only [strictEq, newTask_id, decide_True, Bool.not_true, Bool.false_eq_true, if_false]
  exact filter_id_ne_eq_self _ _ hfresh

/-- A failed create on a list without the generated id leaves the list as it was. -/
theorem addTask_failed_insert_rolls_back_witness :
    (∀ t ∈ (Dashboard.mk [[("id", .str "a"), ("title", .str "Walk")]] false []).tasks,
        t.get "id" ≠ .str "b") ∧
    (addTask "u" "b" [("title", .str "Buy milk")] true
        (Dashboard.mk [[("id", .str "a"), ("title", .str "Walk")]] false [])).tasks
      = [[("id", .str "a"), ("title", .str "Walk")]] :=
  ⟨by decide,
   (addTask_failed_insert_rolls_back "u" "b" [("title", .str "Buy milk")]
      (Dashboard.mk [[("id", .str "a"), ("title", .str "Walk")]] false [])).2.2 (by decide)⟩

/-- C2: right after the optimistic step of `addTask` the local list is the new task
followed by the previous list; the new task has the generated id, the given title,
`completed = false` and the signed-in user as owner; the length grew by one; and a
successful insert leaves the dashboard exactly in that state. -/
theorem addTask_optimistic_then_success (userId newId : String) (payload : JsObj)
    (st : Dashboard) :
    (addTaskOptimistic userId newId payload st).tasks
        = newTask userId newId payload :: st.tasks ∧
    newTask userId newId payload ∈ (addTaskOptimistic userId newId payload st).tasks ∧
    (newTask userId newId payload).get "id" = .str newId ∧
    (newTask userId newId payload).get "title" = payload.get "title" ∧
    (newTask userId newId payload).get "completed" = .bool false ∧
    (newTask userId newId payload).get "user_id" = .str userId ∧
    (∀ i : Nat, (addTaskOptimistic userId newId payload st).tasks[i + 1]? = st.tasks[i]?) ∧
    (addTaskOptimistic userId newId payload st).tasks.length = st.tasks.length + 1 ∧
    addTask userId newId payload false st = addTaskOptimistic userId newId payload st := by
  refine ⟨rfl, ?_, ?_, ?_, ?_, ?_, ?_, ?_, ?_⟩
  · simp [addTaskOptimistic, setTasks, issue, addTaskUpdater]
  · exact newTask_id userId newId payload
  · simp [newTask, JsObj.get, List.lookup]
  · simp [newTask, JsObj.get, List.lookup]
  · simp [newTask, JsObj.get, List.lookup]
  · intro i
    simp [addTaskOptimistic, setTasks, issue, addTaskUpdater]
  · simp [addTaskOptimistic, setTasks, issue, addTaskUpdater]
  · simp [addTask, addTaskResolve]

/-- C3: the editor's payload for title "Buy milk", priority "low" and deadline
"2026-01-31" carries both, but the record that `addTask` adds to the local list and
sends to the remote insert has neither: its priority and deadline read `undefined`.
The update path, given the same payload, does set both on the edited task. -/
theorem addTask_drops_priority_and_deadline :
    handleSubmit "Buy milk" "" "low" "2026-01-31"
      = some [("title", .str "Buy milk"), ("description", .str ""),
              ("priority", .str "low"), ("deadline", .str "2026-01-31")] ∧
    (addTaskOptimistic "u" "n"
        [("title", .str "Buy milk"), ("description", .str ""),
         ("priority", .str "low"), ("deadline", .str "2026-01-31")]
        (Dashboard.mk [] false [])).tasks.map (fun t => (t.get "priority", t.get "deadline"))
      = [(.undefined, .undefined)] ∧
    (addTaskOptimistic "u" "n"
        [("title", .str "Buy milk"), ("description", .str ""),
         ("priority", .str "low"), ("deadline", .str "2026-01-31")]
        (Dashboard.mk [] false [])).calls.map (fun c => c.call)
      = [.insert [("id", .str "n"), ("user_id", .str "u"), ("title", .str "Buy milk"),
                  ("description", .str ""), ("completed", .bool false)]] ∧
    (updateTaskUpdater (.str "n")
        [("title", .str "Buy milk"), ("description", .str ""),
         ("priority", .str "low"), ("deadline", .str "2026-01-31")]
        [[("id", .str "n"), ("title", .str "Milk")]]).map
          (fun t => (t.get "priority", t.get "deadline"))
      = [(.str "low", .str "2026-01-31")] := by
  decide

/-! ## Delete -/

/-- C5: `deleteTask` with the confirmation accepted leaves exactly the tasks whose id
differs from the given id, in their order, and the remote delete is issued from that
list; with the confirmation declined the dashboard is unchanged: same local list, no
remote request. -/
theorem deleteTask_confirmed_or_declined (id : JsVal) (st : Dashboard) :
    (deleteTaskOptimistic true id st).tasks
        = st.tasks.filter (fun t => decide (t.get "id" ≠ id)) ∧
    (deleteTaskOptimistic true id st).calls
        = st.calls ++ [⟨.delete id, st.tasks.filter (fun t => decide (t.get "id" ≠ id))⟩] ∧
    deleteTaskOptimistic false id st = st ∧
    (∀ (deleteError : Bool) (refetch : Except String (List JsObj)),
        deleteTask false id deleteError refetch st = st) := by
  have hf : (fun t : JsObj => !strictEq (t.get "id") id)
      = (fun t : JsObj => decide (t.get "id" ≠ id)) := by
    funext t
    simp [strictEq]
  refine ⟨?_, ?_, ?_, ?_⟩
  · simp [deleteTaskOptimistic, setTasks, issue, deleteTaskUpdater, hf]
  · simp [deleteTaskOptimistic, setTasks, issue, deleteTaskUpdater, hf]
  · simp [deleteTaskOptimistic]
  · intro deleteError refetch
    simp [deleteTask, deleteTaskResolve, deleteTaskOptimistic]

/-! ## Load -/

/-- C8: when the remote select returns a list, `fetchTasks` makes the local list that
list and `loading` false; when it returns an error, the local list and `loading` are
left as they were. -/
theorem fetchTasks_replaces_or_keeps (st : Dashboard) :
    (∀ data : List JsObj,
        (fetchTasks (.ok data) st).tasks = data ∧
        (fetchTasks (.ok data) st).loading = false) ∧
    (∀ e : String,
        (fetchTasks (.error e) st).tasks = st.tasks ∧
        (fetchTasks (.error e) st).loading = st.loading) := by
  refine ⟨fun data => ⟨rfl, rfl⟩, fun e => ⟨rfl, rfl⟩⟩

/-! ## Update -/

theorem getElem?_updateTaskUpdater (id : JsVal) (changes : JsObj) (tasks : List JsObj)
    (i : Nat) :
    (updateTaskUpdater id changes tasks)[i]?
      = (tasks[i]?).map (fun t => if strictEq (t.get "id") id then spread t changes else t) := by
  simp [updateTaskUpdater]

/-- C4: right after `updateTask(id, changes)` the local list has the same length and,
position by position, a task whose id is `id` reads every key of `changes` as in
`changes` and every other key as before, while a task with another id is unchanged;
in particular `updateTask(id, {completed: true})` makes every task with that id read
`completed = true`. -/
theorem updateTask_optimistic_merge (id : JsVal) (changes : JsObj) (now : String)
    (st : Dashboard) :
    (updateTaskOptimistic id changes now st).tasks = updateTaskUpdater id changes st.tasks ∧
    (updateTaskUpdater id changes st.tasks).length = st.tasks.length ∧
    (∀ (i : Nat) (t : JsObj), st.tasks[i]? = some t →
      ∃ u, (updateTaskUpdater id changes st.tasks)[i]? = some u ∧
        (t.get "id" = id →
          ∀ k, u.get k = if changes.hasKey k then changes.get k else t.get k) ∧
        (t.get "id" ≠ id → u = t)) ∧
    (∀ (i : Nat) (t : JsObj), st.tasks[i]? = some t → t.get "id" = id →
      ∃ u, (updateTaskOptimistic id [("completed", .bool true)] now st).tasks[i]? = some u ∧
        u.get "completed" = .bool true) := by
  refine ⟨rfl, by simp [updateTaskUpdater], ?_, ?_⟩
  · intro i t hi
    refine ⟨if strictEq (t.get "id") id then spread t changes else t, ?_, ?_, ?_⟩
    · rw [getElem?_updateTaskUpdater, hi]; rfl
    · intro hid k
      rw [if_pos ((strictEq_eq_true_iff _ _).2 hid)]
      exact get_spread t changes k
    · intro hid
      have : strictEq (t.get "id") id = false := by simp [strictEq, hid]
      simp [this]
  · intro i t hi hid
    refine ⟨spread t [("completed", .bool true)], ?_, ?_⟩
    · show (updateTaskUpdater id [("completed", .bool true)] st.tasks)[i]? = _
      rw [getElem?_updateTaskUpdater, hi]
      simp [(strictEq_eq_true_iff _ _).2 hid]
    · rw [get_spread]; simp [JsObj.hasKey, JsObj.get, List.lookup]

/-- Toggling the second of two tasks to completed leaves the first as it was. -/
theorem updateTask_optimistic_merge_witness :
    ∃ u, (updateTaskOptimistic (.str "b") [("completed", .bool true)] "t0"
        (Dashboard.mk [[("id", .str "a"), ("completed", .bool false)],
                       [("id", .str "b"), ("completed", .bool false)]] false [])).tasks[1]?
          = some u ∧ u.get "completed" = .bool true :=
  (updateTask_optimistic_merge (.str "b") [("completed", .bool true)] "t0"
    (Dashboard.mk [[("id", .str "a"), ("completed", .bool false)],
                   [("id", .str "b"), ("completed", .bool false)]] false [])).2.2.2
    1 [("id", .str "b"), ("completed", .bool false)] (by decide) (by decide)

/-! ## Uniqueness of ids -/

theorem ids_updateTaskUpdater (id : JsVal) (changes : JsObj) (tasks : List JsObj)
    (hno : changes.hasKey "id" = false) :
    ids (updateTaskUpdater id changes tasks) = ids tasks := by
  unfold ids updateTaskUpdater
  rw [List.map_map]
  apply List.map_congr_left
  intro t _
  by_cases h : strictEq (t.get "id") id = true
  · simp [h, get_spread, hno]
  · simp [h]

theorem ids_filter_sublist (p : JsObj → Bool) (tasks : List JsObj) :
    (ids (tasks.filter p)).Sublist (ids tasks) :=
  (List.filter_sublist tasks).map _

/-- C9: pairwise distinct ids stay pairwise distinct through the optimistic step of a
create whose generated id is not in the list, the rollback of a failed create, an
update whose changes have no `id` key, and a delete; and such an update leaves the id
of every task as it was. -/
theorem ids_nodup_preserved (tasks : List JsObj) (hnd : (ids tasks).Nodup) :
    (∀ (userId newId : String) (payload : JsObj), JsVal.str newId ∉ ids tasks →
        (ids (addTaskUpdater (newTask userId newId payload) tasks)).Nodup ∧
        (ids (addTaskRevert (newTask userId newId payload)
          (addTaskUpdater (newTask userId newId payload) tasks))).Nodup) ∧
    (∀ task : JsObj, (ids (addTaskRevert task tasks)).Nodup) ∧
    (∀ (id : JsVal) (changes : JsObj), changes.hasKey "id" = false →
        (ids (updateTaskUpdater id changes tasks)).Nodup ∧
        ids (updateTaskUpdater id changes tasks) = ids tasks) ∧
    (∀ id : JsVal, (ids (deleteTaskUpdater id tasks)).Nodup) := by
  have hcons : ∀ (userId newId : String) (payload : JsObj), JsVal.str newId ∉ ids tasks →
      (ids (addTaskUpdater (newTask userId newId payload) tasks)).Nodup := by
    intro userId newId payload hfresh
    show (ids (newTask userId newId payload :: tasks)).Nodup
    simp only [ids, List.map_cons, newTask_id]
    exact List.nodup_cons.2 ⟨hfresh, hnd⟩
  refine ⟨?_, ?_, ?_, ?_⟩
  · intro userId newId payload hfresh
    exact ⟨hcons userId newId payload hfresh,
      (hcons userId newId payload hfresh).sublist (ids_filter_sublist _ _)⟩
  · intro task
    exact hnd.sublist (ids_filter_sublist _ _)
  · intro id changes hno
    rw [ids_updateTaskUpdater id changes tasks hno]
    exact ⟨hnd, rfl⟩
  · intro id
    exact hnd.sublist (ids_filter_sublist _ _)

/-- Two tasks with distinct ids keep distinct ids when a third id is created. -/
theorem ids_nodup_preserved_witness :
    (ids [[("id", .str "a")], [("id", .str "b")]]).Nodup ∧
    JsVal.str "c" ∉ ids [[("id", .str "a")], [("id", .str "b")]] ∧
    (ids (addTaskUpdater (newTask "u" "c" [("title", .str "Buy milk")])
        [[("id", JsVal.str "a")], [("id", .str "b")]])).Nodup :=
  ⟨by decide, by decide,
   ((ids_nodup_preserved [[("id", .str "a")], [("id", .str "b")]] (by decide)).1
      "u" "c" [("title", .str "Buy milk")] (by decide)).1⟩

/-! ## Mark all done -/

theorem foldl_updaters_eq_map (is : List JsVal) (tasks : List JsObj) :
    (is.map (fun i => updateTaskUpdater i [("completed", .bool true)])).foldl
        (fun cur updater => updater cur) tasks
      = tasks.map (fun t => is.foldl completeStep t) := by
  induction is generalizing tasks with
  | nil => simp
  | cons i is ih =>
    simp only [List.map_cons, List.foldl_cons]
    rw [ih]
    simp [updateTaskUpdater, completeStep]

theorem markAllDone_eq_map (tasks : List JsObj) :
    markAllDone tasks
      = tasks.map (fun t =>
          (ids (tasks.filter (fun t => !(t.get "completed").truthy))).foldl completeStep t) := by
  unfold markAllDone
  rw [← foldl_updaters_eq_map, ids, List.map_map]
  rfl

theorem completeStep_get_of_ne (u : JsObj) (i : JsVal) (k : String) (hk : k ≠ "completed") :
    (completeStep u i).get k = u.get k := by
  unfold completeStep
  split
  · rw [get_spread]
    have hkb : (k == "completed") = false := by simp [hk]
    have : JsObj.hasKey [("completed", JsVal.bool true)] k = false := by
      simp [JsObj.hasKey, List.lookup, hkb]
    simp [this]
  · rfl

theorem completeStep_completed (u : JsObj) (i : JsVal) :
    (completeStep u i).get "completed"
      = if u.get "id" = i then .bool true else u.get "completed" := by
  unfold completeStep
  by_cases h : u.get "id" = i
  · rw [if_pos ((strictEq_eq_true_iff _ _).2 h), if_pos h, get_spread]
    simp [JsObj.hasKey, JsObj.get, List.lookup]
  · have hs : strictEq (u.get "id") i = false := by simp [strictEq, h]
    simp [hs, h]

theorem foldl_completeStep_get_of_ne (is : List JsVal) (t : JsObj) (k : String)
    (hk : k ≠ "completed") : (is.foldl completeStep t).get k = t.get k := by
  induction is generalizing t with
  | nil => rfl
  | cons i is ih =>
    rw [List.foldl_cons, ih, completeStep_get_of_ne _ _ _ hk]

theorem foldl_completeStep_keeps_true (is : List JsVal) (t : JsObj)
    (h : t.get "completed" = .bool true) :
    (is.foldl completeStep t).get "completed" = .bool true := by
  induction is generalizing t with
  | nil => exact h
  | cons i is ih =>
    rw [List.foldl_cons]
    apply ih
    rw [completeStep_completed, h]
    simp

theorem foldl_completeStep_of_mem (is : List JsVal) (t : JsObj) (h : t.get "id" ∈ is) :
    (is.foldl completeStep t).get "completed" = .bool true := by
  induction is generalizing t with
  | nil => simp at h
  | cons i is ih =>
    rw [List.foldl_cons]
    by_cases hi : t.get "id" = i
    · apply foldl_completeStep_keeps_true
      rw [completeStep_completed, if_pos hi]
    · apply ih
      rw [completeStep_get_of_ne _ _ _ (by decide)]
      rcases List.mem_cons.1 h with h | h
      · exact absurd h hi
      · exact h

/-- C10: on a list whose `completed` fields are booleans or missing (no task has a
truthy `completed` other than `true`), after the optimistic steps of 'Mark all done'
every task reads `completed = true`, the list has the same length and the same ids in
the same order, and position by position every key other than `completed` reads as
before. -/
theorem markAllDone_completes_every_task (tasks : List JsObj)
    (hty : ∀ t ∈ tasks, (t.get "completed").truthy = true → t.get "completed" = .bool true) :
    (∀ u ∈ markAllDone tasks, u.get "completed" = .bool true) ∧
    (markAllDone tasks).length = tasks.length ∧
    ids (markAllDone tasks) = ids tasks ∧
    (∀ (i : Nat) (t : JsObj), tasks[i]? = some t →
      ∃ u, (markAllDone tasks)[i]? = some u ∧
        ∀ k, k ≠ "completed" → u.get k = t.get k) := by
  rw [markAllDone_eq_map]
  refine ⟨?_, by simp, ?_, ?_⟩
  · intro u hu
    obtain ⟨t, ht, rfl⟩ := List.mem_map.1 hu
    by_cases hb : (t.get "completed").truthy = true
    · exact foldl_completeStep_keeps_true _ _ (hty t ht hb)
    · apply foldl_completeStep_of_mem
      refine List.mem_map.2 ⟨t, ?_, rfl⟩
      simp [List.mem_filter, ht, hb]
  · unfold ids
    rw [List.map_map]
    apply List.map_congr_left
    intro t _
    exact foldl_completeStep_get_of_ne _ _ _ (by decide)
  · intro i t hi
    refine ⟨_, by rw [List.getElem?_map, hi]; rfl, ?_⟩
    intro k hk
    exact foldl_completeStep_get_of_ne _ _ _ hk

/-- One active task, one completed task and one without the field: all three read
completed afterwards. -/
theorem markAllDone_completes_every_task_witness :
    (∀ t ∈ [[("id", JsVal.str "a"), ("completed", JsVal.bool false)],
            [("id", .str "b"), ("completed", .bool true)], [("id", .str "c")]],
        (JsObj.get t "completed").truthy = true → JsObj.get t "completed" = .bool true) ∧
    (∀ u ∈ markAllDone [[("id", .str "a"), ("completed", .bool false)],
                        [("id", .str "b"), ("completed", .bool true)], [("id", .str "c")]],
        u.get "completed" = .bool true) :=
  ⟨by decide,
   (markAllDone_completes_every_task
      [[("id", .str "a"), ("completed", .bool false)],
       [("id", .str "b"), ("completed", .bool true)], [("id", .str "c")]] (by decide)).1⟩

/-! ## The displayed list -/

theorem filterThrowing_eq_ok (p : JsObj → Except JsError Bool) (f : JsObj → Bool)
    (l : List JsObj) (h : ∀ t ∈ l, p t = .ok (f t)) :
    filterThrowing p l = .ok (l.filter f) := by
  induction l with
  | nil => rfl
  | cons t ts ih =>
    have ht := h t (List.mem_cons_self t ts)
    have hts := ih (fun u hu => h u (List.mem_cons_of_mem t hu))
    simp only [filterThrowing, ht, hts, List.filter_cons]

theorem includes_empty (s : String) : includes s "" = true := by
  unfold includes
  cases s.data <;> simp [List.tails]

theorem queryKeeps_of_isTask (lower : String → String) (query : String) (t : JsObj)
    (h : isTask t = true) :
    queryKeeps lower query t
      = .ok (containsIgnoringCase lower (textOf t "title") query ||
              containsIgnoringCase lower (textOf t "description") query) := by
  revert h
  unfold isTask queryKeeps textOf containsIgnoringCase
  cases JsObj.get t "title" <;> cases JsObj.get t "description" <;>
    cases JsObj.get t "completed" <;> simp [toLowerCase, jsOr, JsVal.truthy]
  all_goals (split_ifs <;> simp_all)

theorem statusKeeps_of_isTask (filter : String) (t : JsObj)
    (hfilter : filter = "all" ∨ filter = "active" ∨ filter = "completed")
    (h : isTask t = true) : statusKeeps filter t = inBucket filter t := by
  revert h
  unfold isTask statusKeeps inBucket
  rcases hfilter with rfl | rfl | rfl <;>
    cases JsObj.get t "title" <;> cases JsObj.get t "description" <;>
      cases JsObj.get t "completed" <;> simp [JsVal.truthy]

/-- C6: on tasks typed as in the data model and for each of the three status filters,
`filtered` raises no exception and is the list of the tasks, in their order, that are
in the selected bucket and whose title or description (a missing one counting as
empty) contains the query ignoring letter case; with the filter 'completed' and the
empty query it is the list of the tasks whose `completed` is true. -/
theorem filtered_eq_displayed (lower : String → String) (tasks : List JsObj)
    (filter query : String)
    (hfilter : filter = "all" ∨ filter = "active" ∨ filter = "completed")
    (hty : ∀ t ∈ tasks, isTask t = true) :
    filtered lower tasks filter query
        = .ok (tasks.filter (isDisplayed lower filter query)) ∧
    (tasks.filter (isDisplayed lower filter query)).Sublist tasks ∧
    (∀ t, t ∈ tasks.filter (isDisplayed lower filter query) ↔
        t ∈ tasks ∧ inBucket filter t = true ∧
          (containsIgnoringCase lower (textOf t "title") query = true ∨
            containsIgnoringCase lower (textOf t "description") query = true)) ∧
    (lower "" = "" →
      filtered lower tasks "completed" ""
        = .ok (tasks.filter (fun t => decide (t.get "completed" = .bool true)))) := by
  have key : ∀ (f q : String), (f = "all" ∨ f = "active" ∨ f = "completed") →
      filtered lower tasks f q = .ok (tasks.filter (isDisplayed lower f q)) := by
    intro f q hf
    unfold filtered
    rw [filterThrowing_eq_ok (queryKeeps lower q)
      (fun t => containsIgnoringCase lower (textOf t "title") q ||
        containsIgnoringCase lower (textOf t "description") q)]
    · rw [List.filter_filter]
      congr 1
      apply List.filter_congr
      intro t ht
      rw [statusKeeps_of_isTask f t hf (hty t ht), Bool.and_comm]
      rfl
    · intro t ht
      exact queryKeeps_of_isTask lower q t (hty t (List.mem_filter.1 ht).1)
  refine ⟨key filter query hfilter, List.filter_sublist tasks, ?_, ?_⟩
  · intro t
    simp [List.mem_filter, isDisplayed]
  · intro hlower
    rw [key "completed" "" (Or.inr (Or.inr rfl))]
    congr 1
    apply List.filter_congr
    intro t _
    simp [isDisplayed, inBucket, containsIgnoringCase, hlower, includes_empty]

/-- Searching "MILK" among the active tasks finds the one active task that mentions
milk, whatever the case of its letters. -/
theorem filtered_eq_displayed_witness :
    (∀ t ∈ [[("id", JsVal.str "a"), ("title", JsVal.str "Buy Milk"), ("completed", JsVal.bool false)],
            [("id", .str "b"), ("title", .str "Walk"), ("description", .str "no milk"),
              ("completed", .bool true)],
            [("id", .str "c"), ("title", .str "Run"), ("description", .null),
              ("completed", .bool false)]],
        isTask t = true) ∧
    filtered asciiLower
        [[("id", .str "a"), ("title", .str "Buy Milk"), ("completed", .bool false)],
         [("id", .str "b"), ("title", .str "Walk"), ("description", .str "no milk"),
           ("completed", .bool true)],
         [("id", .str "c"), ("title", .str "Run"), ("description", .null),
           ("completed", .bool false)]]
        "active" "MILK"
      = .ok [[("id", .str "a"), ("title", .str "Buy Milk"), ("completed", .bool false)]] :=
  ⟨by decide,
   ((filtered_eq_displayed asciiLower
      [[("id", .str "a"), ("title", .str "Buy Milk"), ("completed", .bool false)],
       [("id", .str "b"), ("title", .str "Walk"), ("description", .str "no milk"),
         ("completed", .bool true)],
       [("id", .str "c"), ("title", .str "Run"), ("description", .null),
         ("completed", .bool false)]]
      "active" "MILK" (by decide) (by decide)).1).trans (by decide)⟩

/-! ## The task editor -/

theorem trimmed_eq_nil_iff (l : List Char) :
    ((l.dropWhile isJsSpace).reverse.dropWhile isJsSpace).reverse = []
      ↔ l.all isJsSpace = true := by
  rw [List.reverse_eq_nil_iff, List.dropWhile_eq_nil_iff, List.all_eq_true]
  constructor
  · intro h
    have hnil : l.dropWhile isJsSpace = [] := by
      by_contra hne
      have hhead := List.head_dropWhile_not isJsSpace l hne
      have hmem : (l.dropWhile isJsSpace).head hne ∈ (l.dropWhile isJsSpace).reverse :=
        List.mem_reverse.2 (List.head_mem hne)
      rw [h _ hmem] at hhead
      exact Bool.noConfusion hhead
    exact List.dropWhile_eq_nil_iff.1 hnil
  · intro h x hx
    rw [List.dropWhile_eq_nil_iff.2 h] at hx
    simp at hx

theorem trim_eq_empty_iff (s : String) : trim s = "" ↔ s.data.all isJsSpace = true := by
  rw [← trimmed_eq_nil_iff]
  unfold trim
  constructor
  · intro h
    exact congrArg String.data h
  · intro h
    rw [h]

theorem handleSubmit_eq (title description priority deadline : String) :
    handleSubmit title description priority deadline
      = if title.data.all isJsSpace = true then none
        else some
          [ ("title", .str (trim title)),
            ("description", .str (trim description)),
            ("priority", .str priority),
            ("deadline", .str deadline) ] := by
  unfold handleSubmit
  by_cases h : title.data.all isJsSpace = true
  · simp [h, JsVal.truthy, (trim_eq_empty_iff title).2 h]
  · have hne : trim title ≠ "" := fun he => h ((trim_eq_empty_iff title).1 he)
    simp [h, JsVal.truthy, hne]

/-- C7: a title that is empty or all white space makes `handleSubmit` return without
calling `onSave`, so submitting leaves the dashboard as it was: same local list, no
remote request; for any other title the payload handed to `onSave` has the trimmed
title, which is not empty, and that is the title `addTask` puts in the new record and
the title in the changes `updateTask` receives. -/
theorem handleSubmit_validates_title (title description priority deadline : String) :
    (title.data.all isJsSpace = true →
      handleSubmit title description priority deadline = none ∧
      ∀ (editorTask : Option JsObj) (userId newId now : String) (outcome : SaveOutcome)
        (st : Dashboard),
        submitEditor editorTask userId newId now outcome title description priority deadline st
          = st) ∧
    (title.data.all isJsSpace = false →
      trim title ≠ "" ∧
      ∃ payload, handleSubmit title description priority deadline = some payload ∧
        payload.get "title" = .str (trim title) ∧
        (∀ (userId newId now : String) (outcome : SaveOutcome) (st : Dashboard),
          submitEditor none userId newId now outcome title description priority deadline st
              = addTask userId newId payload outcome.error st ∧
          (newTask userId newId payload).get "title" = .str (trim title)) ∧
        (∀ (task : JsObj) (userId newId now : String) (outcome : SaveOutcome)
          (st : Dashboard),
          submitEditor (some task) userId newId now outcome title description priority
              deadline st
            = updateTask (task.get "id") payload now outcome.error outcome.refetch st)) := by
  constructor
  · intro h
    have hs : handleSubmit title description priority deadline = none := by
      rw [handleSubmit_eq, if_pos h]
    refine ⟨hs, ?_⟩
    intro editorTask userId newId now outcome st
    simp [submitEditor, hs]
  · intro h
    have hnot : ¬ (title.data.all isJsSpace = true) := by simp [h]
    have hs := handleSubmit_eq title description priority deadline
    rw [if_neg hnot] at hs
    refine ⟨fun he => hnot ((trim_eq_empty_iff title).1 he), _, hs, ?_, ?_, ?_⟩
    · simp [JsObj.get, List.lookup]
    · intro userId newId now outcome st
      refine ⟨by simp [submitEditor, hs, onSave], ?_⟩
      simp [newTask, JsObj.get, List.lookup]
    · intro task userId newId now outcome st
      simp [submitEditor, hs, onSave]

/-- A blank title changes nothing; the title "  Buy milk " is saved as "Buy milk". -/
theorem handleSubmit_validates_title_witness :
    (submitEditor none "u" "n" "t0" ⟨false, .ok []⟩ " \t " "d" "low" ""
        (Dashboard.mk [] false []) = Dashboard.mk [] false []) ∧
    trim "  Buy milk " ≠ "" :=
  ⟨((handleSubmit_validates_title " \t " "d" "low" "").1 (by decide)).2
      none "u" "n" "t0" ⟨false, .ok []⟩ (Dashboard.mk [] false []),
   ((handleSubmit_validates_title "  Buy milk " "d" "low" "").2 (by decide)).1⟩

end TodoApp
